import Mathlib

/-!
Verification of the fee-summing pipeline in `src/main.rs` (block-fees).

The program reads one positional argument (a block hash), checks that the
argument with `"/"` appended starts with the eight-zero magic prefix, builds
an HTTP client, resolves the block into a list of transaction ids
(`get_block_transaction_ids`), spawns one task per id that fetches the fee
(`get_fee_from_txid`) and calls `std::process::exit(1)` on failure, then
awaits the task handles in spawn order, summing the `rust_decimal::Decimal`
fees, and prints the total.

Network calls are modelled as oracle functions `resolver` and `fetcher`
(the remote dataset); `rust_decimal::Decimal` values are modelled as exact
rationals, with the set of values actually representable by the 96-bit
`Decimal` type captured separately by `RepresentableDec`. The real-time
order in which the spawned fetch tasks complete is modelled by an explicit
schedule `σ` (a permutation of the task indices).
-/

namespace BlockFees

/-- The error type of `src/main.rs` (`enum AppError`): a `reqwest` transport or
decode error, or a URL composition error. -/
inductive AppError where
  | reqwestError
  | urlParseError
deriving DecidableEq, Repr

/-- Debug rendering of an `AppError`, as interpolated by `error!("... {:?}", e)`. -/
def describeError : AppError → String
  | AppError.reqwestError => "ReqwestError"
  | AppError.urlParseError => "UrlParseError"

/-- `const ESPLORA_API` of `src/main.rs`. -/
def ESPLORA_API : String := "https://blockstream.info/api/"

/-- `const MAGIC_NUMBER` of `src/main.rs`: the required leading-zero prefix. -/
def MAGIC_NUMBER : String := "00000000"

/-- Rust's `str::starts_with`, modelled on the character sequences of the two
strings (for valid UTF-8 data, byte-prefix and character-prefix coincide). -/
def rustStartsWith (s p : String) : Bool := p.data.isPrefixOf s.data

/-- Modelled from the spec: the block-identifier format the spec requires
(64 lowercase hexadecimal characters carrying the leading-zero prefix).
The source's validation in `main` is only the `MAGIC_NUMBER` prefix check;
this definition renders the spec's words for comparison with it. -/
def specValidBlockId (s : String) : Bool :=
  s.data.length == 64 &&
    s.data.all (fun c => c.isDigit || ('a' ≤ c && c ≤ 'f')) &&
    rustStartsWith s MAGIC_NUMBER

/-- env_logger severity of `error!`. -/
def errorLevel : Nat := 1

/-- env_logger severity of `info!`. -/
def infoLevel : Nat := 3

/-- Log lines actually shown for a given verbosity: an emitted `(level, msg)`
event is displayed when its level is within the configured verbosity. -/
def shownFor (verbosity : Nat) (events : List (Nat × String)) : List String :=
  (events.filter (fun p => p.1 ≤ verbosity)).map Prod.snd

/-- One fetch oracle application per transaction id, in spawn (index) order:
the spawned task `i` runs `get_fee_from_txid(txid_i, ...)`. -/
def fetchResults (fetcher : String → Except AppError ℚ) (txids : List String) :
    List (Except AppError ℚ) :=
  txids.map fetcher

/-- Whether every spawned fetch succeeded (no task reaches its
`process::exit(1)` branch). -/
def dispatchAllOk (results : List (Except AppError ℚ)) : Bool :=
  results.all Except.isOk

/-- The fee values of the successful fetches, in spawn order. -/
def okFees (results : List (Except AppError ℚ)) : List ℚ :=
  results.filterMap Except.toOption

/-- The indices of the spawned tasks that run to completion, given the
real-time completion schedule `σ`: tasks complete in `σ` order until the
first failing task completes, at which point that task calls
`std::process::exit(1)` and every later task is killed mid-flight. When no
task fails, all of them complete. -/
def completedUpToFailure (σ : List Nat) (results : List (Except AppError ℚ)) :
    List Nat :=
  σ.takeWhile (fun i => (results.getD i (Except.ok 0)).isOk)

/-- The joined set of `(index, outcome)` pairs the coordinating task obtains
from `handle.await` over all spawned tasks. When every fetch succeeds, the
join loop receives one outcome per spawned index; when some fetch fails, the
failing task terminates the whole process from inside the spawned task,
bypassing result propagation, so no joined set is ever produced. -/
def joinedOutcomes (results : List (Except AppError ℚ)) :
    Option (List (Nat × Except AppError ℚ)) :=
  if dispatchAllOk results then some results.enum else none

/-- The aggregation loop of `main`: `let mut sum = dec!(0); for handle in
handles { sum += fee }` — a left fold of exact decimal addition over the fees
in spawn order. -/
def sumFees (fees : List ℚ) : ℚ := fees.foldl (· + ·) 0

/-- The `info!("Spawning transacion {i}")` events, one per spawned task
(the typo is the source's). -/
def spawnEvents (n : Nat) : List (Nat × String) :=
  (List.range n).map (fun i => (infoLevel, "Spawning transacion " ++ toString i))

/-- The `info!("Finished transaction {i}")` events of the tasks that ran to
completion, in completion order. -/
def finishEvents (completed : List Nat) : List (Nat × String) :=
  completed.map (fun i => (infoLevel, "Finished transaction " ++ toString i))

/-- The observable behaviour of one process invocation. -/
structure ProcTrace where
  /-- whether `Client::new()` was reached -/
  clientBuilt : Bool
  /-- whether `get_block_transaction_ids` was invoked (a network call) -/
  resolverCalled : Bool
  /-- the transaction ids for which a fetch task was spawned -/
  dispatched : List String
  /-- indices of fetch tasks that ran to completion -/
  completedFetches : List Nat
  /-- the total printed to stdout, when one is printed -/
  output : Option ℚ
  /-- the process exit status -/
  exitCode : Nat
  /-- the `(level, message)` log events emitted via `error!` / `info!` -/
  events : List (Nat × String)
  /-- the log lines displayed, after env_logger verbosity filtering -/
  shownLogs : List String
deriving DecidableEq, Repr

/-- The dispatch-join-aggregate phase of `main`, entered once the resolver
returned `txids`: spawn one fetch task per id, and either join them all and
print the sum (exit status 0), or — when some fetch fails — exit with status
1 from inside the first failing task per the completion schedule `σ`,
without awaiting the remaining handles and without printing anything. -/
def runDispatchPhase (verbosity : Nat) (fetcher : String → Except AppError ℚ)
    (σ : List Nat) (txids : List String) : ProcTrace :=
  let results := fetchResults fetcher txids
  let completed := completedUpToFailure σ results
  if dispatchAllOk results then
    let evs := spawnEvents txids.length ++ finishEvents completed
    { clientBuilt := true, resolverCalled := true, dispatched := txids,
      completedFetches := completed, output := some (sumFees (okFees results)),
      exitCode := 0, events := evs, shownLogs := shownFor verbosity evs }
  else
    let evs := spawnEvents txids.length ++ finishEvents completed ++
      [(errorLevel, "Error fetching fee from one or more transactions.")]
    { clientBuilt := true, resolverCalled := true, dispatched := txids,
      completedFetches := completed, output := none,
      exitCode := 1, events := evs, shownLogs := shownFor verbosity evs }

/-- The whole of `main`, as a function of the command-line argument, the
remote dataset (`resolver` and `fetcher` oracles, each returning either a
decoded value or an `AppError`), the verbosity configured through the
environment, and the completion schedule `σ` of the spawned tasks. -/
def runMain (verbosity : Nat) (arg : Option String)
    (resolver : String → Except AppError (List String))
    (fetcher : String → Except AppError ℚ) (σ : List Nat) : ProcTrace :=
  match arg with
  | none =>
      let evs := [(errorLevel, "Please provide a Bitcoin mainnet block hash.")]
      { clientBuilt := false, resolverCalled := false, dispatched := [],
        completedFetches := [], output := none, exitCode := 1,
        events := evs, shownLogs := shownFor verbosity evs }
  | some s =>
      let block_hash := s ++ "/"
      if rustStartsWith block_hash MAGIC_NUMBER then
        match resolver block_hash with
        | Except.error e =>
            let evs := [(errorLevel,
              "Error fetching transactions from block ID: " ++ describeError e)]
            { clientBuilt := true, resolverCalled := true, dispatched := [],
              completedFetches := [], output := none, exitCode := 1,
              events := evs, shownLogs := shownFor verbosity evs }
        | Except.ok txids => runDispatchPhase verbosity fetcher σ txids
      else
        let evs := [(errorLevel,
          "Invalid hash. Please provide a Bitcoin mainnet block hash.")]
        { clientBuilt := false, resolverCalled := false, dispatched := [],
          completedFetches := [], output := none, exitCode := 1,
          events := evs, shownLogs := shownFor verbosity evs }

/-- An exact decimal value: an integer mantissa scaled by a power of ten.
This is the class of values binary floating point cannot represent exactly
in general, and the reason the source uses a decimal type for fees. -/
def IsDecimalValue (q : ℚ) : Prop := ∃ m : ℤ, ∃ e : ℕ, q = m / 10 ^ e

/-- The values representable by `rust_decimal::Decimal`, the fee type of
`struct Transaction { fee: Decimal }`: a sign-and-96-bit integer mantissa
scaled by `10 ^ e` with `e ≤ 28` (fixed precision, per the crate's
representation) — not an arbitrary-precision decimal type. -/
def RepresentableDec (q : ℚ) : Prop :=
  ∃ m : ℤ, ∃ e : ℕ, e ≤ 28 ∧ m.natAbs < 2 ^ 96 ∧ q = m / 10 ^ e

/-- Remote dataset for tests: a block with no transactions. -/
def emptyResolver : String → Except AppError (List String) :=
  fun _ => Except.ok []

/-- Remote dataset for tests: every fee is zero. -/
def zeroFetcher : String → Except AppError ℚ :=
  fun _ => Except.ok 0

/-- Remote dataset for tests: resolution itself fails with a transport error. -/
def failResolver : String → Except AppError (List String) :=
  fun _ => Except.error AppError.reqwestError

/-- Remote dataset for tests: a block with three transactions. -/
def threeTxResolver : String → Except AppError (List String) :=
  fun _ => Except.ok ["t1", "t2", "t3"]

/-- Remote dataset for tests: fees 0.0001, 0.0002 and 0.0003 for the three
transactions of `threeTxResolver`. -/
def threeFeeFetcher : String → Except AppError ℚ :=
  fun t =>
    if t = "t1" then Except.ok (1 / 10000)
    else if t = "t2" then Except.ok (2 / 10000)
    else Except.ok (3 / 10000)

/-- Remote dataset for tests: a block with two transactions. -/
def twoTxResolver : String → Except AppError (List String) :=
  fun _ => Except.ok ["t1", "t2"]

/-- Remote dataset for tests: the first transaction's fetch fails, the
second one's succeeds. -/
def firstFailFetcher : String → Except AppError ℚ :=
  fun t => if t = "t1" then Except.error AppError.reqwestError else Except.ok 1

/-- A `rust_decimal::Decimal` value as stored: an integer mantissa `m` and a
scale `e`, denoting `m / 10 ^ e`. Fee amounts are non-negative by the spec's
domain convention, so the sign word is elided and `m : Nat`. -/
structure DecVal where
  /-- the 96-bit integer mantissa -/
  m : Nat
  /-- the scale: the power of ten the mantissa is divided by -/
  e : Nat
deriving DecidableEq, Repr

/-- A well-formed `Decimal`: the mantissa fits in 96 bits and the scale is at
most 28, per the crate's representation. -/
def DecVal.wf (d : DecVal) : Prop := d.m < 2 ^ 96 ∧ d.e ≤ 28

/-- The exact rational value of a stored `Decimal`. -/
def DecVal.toRat (d : DecVal) : ℚ := d.m / 10 ^ d.e

/-- Division by ten with banker's rounding (round half to even), the
crate's rounding of a dropped digit when a result must lose scale. -/
def bankersDiv10 (n : Nat) : Nat :=
  if n % 10 > 5 then n / 10 + 1
  else if n % 10 < 5 then n / 10
  else if (n / 10) % 2 = 1 then n / 10 + 1 else n / 10

/-- Fit an exact mantissa `s` at scale `e` into 96 bits: while it does not
fit and scale remains, drop a digit with banker's rounding; `none` models
the overflow panic once the scale is exhausted. -/
def fitMantissa : Nat → Nat → Option DecVal
  | s, 0 => if s < 2 ^ 96 then some (DecVal.mk s 0) else none
  | s, e + 1 =>
      if s < 2 ^ 96 then some (DecVal.mk s (e + 1))
      else fitMantissa (bankersDiv10 s) e

/-- `rust_decimal` addition, as exercised by the program's `sum += fee`:
align both operands to the larger scale, sum the mantissas exactly, and fit
the result into 96 bits (exact whenever the exact sum is representable at
that scale; otherwise scale is reduced with banker's rounding; overflow at
scale 0 panics, modelled by `none`). -/
def decAdd (x y : DecVal) : Option DecVal :=
  fitMantissa
    (x.m * 10 ^ (max x.e y.e - x.e) + y.m * 10 ^ (max x.e y.e - y.e))
    (max x.e y.e)

/-- The program's aggregation loop under the fixed-precision `Decimal`
semantics: `let mut sum = dec!(0); for handle in handles { sum += fee }`. -/
def decSum (fees : List DecVal) : Option DecVal :=
  fees.foldl (fun acc d => acc.bind (fun a => decAdd a d)) (some (DecVal.mk 0 0))

end BlockFees

namespace BlockFees

/-! ## Branch characterisations of `runMain` -/

/-- With no positional argument, `main` logs the missing-hash diagnostic and
exits with status 1 before `Client::new()`. -/
theorem runMain_no_arg (v : Nat) (r : String → Except AppError (List String))
    (f : String → Except AppError ℚ) (σ : List Nat) :
    runMain v none r f σ =
      { clientBuilt := false, resolverCalled := false, dispatched := [],
        completedFetches := [], output := none, exitCode := 1,
        events := [(errorLevel, "Please provide a Bitcoin mainnet block hash.")],
        shownLogs := shownFor v
          [(errorLevel, "Please provide a Bitcoin mainnet block hash.")] } := rfl

/-- With an argument failing the `MAGIC_NUMBER` prefix check, `main` logs the
invalid-hash diagnostic and exits with status 1 before `Client::new()`. -/
theorem runMain_invalid_hash (v : Nat) (s : String)
    (r : String → Except AppError (List String)) (f : String → Except AppError ℚ)
    (σ : List Nat) (hpre : rustStartsWith (s ++ "/") MAGIC_NUMBER = false) :
    runMain v (some s) r f σ =
      { clientBuilt := false, resolverCalled := false, dispatched := [],
        completedFetches := [], output := none, exitCode := 1,
        events := [(errorLevel,
          "Invalid hash. Please provide a Bitcoin mainnet block hash.")],
        shownLogs := shownFor v
          [(errorLevel,
            "Invalid hash. Please provide a Bitcoin mainnet block hash.")] } := by
  simp [runMain, hpre]

/-- With a prefix-accepted argument whose resolution fails, `main` logs the
resolution diagnostic and exits with status 1 without spawning any fetch. -/
theorem runMain_resolver_error (v : Nat) (s : String)
    (r : String → Except AppError (List String)) (f : String → Except AppError ℚ)
    (σ : List Nat) (e : AppError)
    (hpre : rustStartsWith (s ++ "/") MAGIC_NUMBER = true)
    (hres : r (s ++ "/") = Except.error e) :
    runMain v (some s) r f σ =
      { clientBuilt := true, resolverCalled := true, dispatched := [],
        completedFetches := [], output := none, exitCode := 1,
        events := [(errorLevel,
          "Error fetching transactions from block ID: " ++ describeError e)],
        shownLogs := shownFor v
          [(errorLevel,
            "Error fetching transactions from block ID: " ++ describeError e)] } := by
  simp [runMain, hpre, hres]

/-- With a prefix-accepted argument whose resolution succeeds, `main` enters
the dispatch phase on the resolved transaction ids. -/
theorem runMain_resolved (v : Nat) (s : String)
    (r : String → Except AppError (List String)) (f : String → Except AppError ℚ)
    (σ : List Nat) (txids : List String)
    (hpre : rustStartsWith (s ++ "/") MAGIC_NUMBER = true)
    (hres : r (s ++ "/") = Except.ok txids) :
    runMain v (some s) r f σ = runDispatchPhase v f σ txids := by
  simp [runMain, hpre, hres]

/-- When every spawned fetch succeeds, the coordinator joins all handles,
sums the fees in spawn order and prints the total, exiting with status 0. -/
theorem runDispatchPhase_all_ok (v : Nat) (f : String → Except AppError ℚ)
    (σ : List Nat) (txids : List String)
    (hall : dispatchAllOk (fetchResults f txids) = true) :
    runDispatchPhase v f σ txids =
      { clientBuilt := true, resolverCalled := true, dispatched := txids,
        completedFetches := completedUpToFailure σ (fetchResults f txids),
        output := some (sumFees (okFees (fetchResults f txids))),
        exitCode := 0,
        events := spawnEvents txids.length ++
          finishEvents (completedUpToFailure σ (fetchResults f txids)),
        shownLogs := shownFor v (spawnEvents txids.length ++
          finishEvents (completedUpToFailure σ (fetchResults f txids))) } := by
  simp [runDispatchPhase, hall]

/-- When some spawned fetch fails, the first failing task to complete calls
`process::exit(1)`: nothing is printed and later tasks never complete. -/
theorem runDispatchPhase_failure (v : Nat) (f : String → Except AppError ℚ)
    (σ : List Nat) (txids : List String)
    (hall : dispatchAllOk (fetchResults f txids) = false) :
    runDispatchPhase v f σ txids =
      { clientBuilt := true, resolverCalled := true, dispatched := txids,
        completedFetches := completedUpToFailure σ (fetchResults f txids),
        output := none, exitCode := 1,
        events := spawnEvents txids.length ++
          finishEvents (completedUpToFailure σ (fetchResults f txids)) ++
          [(errorLevel, "Error fetching fee from one or more transactions.")],
        shownLogs := shownFor v (spawnEvents txids.length ++
          finishEvents (completedUpToFailure σ (fetchResults f txids)) ++
          [(errorLevel, "Error fetching fee from one or more transactions.")]) } := by
  simp [runDispatchPhase, hall]

/-! ## Arithmetic helper lemmas -/

/-- The aggregation fold with a starting accumulator. -/
theorem foldl_add_eq (l : List ℚ) (a : ℚ) : l.foldl (· + ·) a = a + l.sum := by
  induction l generalizing a with
  | nil => simp
  | cons x xs ih => simp [ih, add_assoc]

/-- The aggregation loop computes the exact rational sum of the fees. -/
theorem sumFees_eq_sum (l : List ℚ) : sumFees l = l.sum := by
  simp [sumFees, foldl_add_eq]

/-- Exact decimal values are closed under addition. -/
theorem IsDecimalValue.add {a b : ℚ} (ha : IsDecimalValue a)
    (hb : IsDecimalValue b) : IsDecimalValue (a + b) := by
  obtain ⟨m₁, e₁, rfl⟩ := ha
  obtain ⟨m₂, e₂, rfl⟩ := hb
  refine ⟨m₁ * 10 ^ e₂ + m₂ * 10 ^ e₁, e₁ + e₂, ?_⟩
  have h₁ : ((10 : ℚ) ^ e₁) ≠ 0 := by positivity
  have h₂ : ((10 : ℚ) ^ e₂) ≠ 0 := by positivity
  push_cast
  rw [pow_add, div_add_div _ _ h₁ h₂]
  ring

/-- Exact decimal values are closed under list sums. -/
theorem isDecimalValue_sum (l : List ℚ) (h : ∀ q ∈ l, IsDecimalValue q) :
    IsDecimalValue l.sum := by
  induction l with
  | nil => exact ⟨0, 0, by norm_num⟩
  | cons x xs ih =>
      simp only [List.sum_cons]
      exact (h x (by simp)).add (ih fun q hq => h q (by simp [hq]))

/-- When every fetch succeeded, the successful fees are one per spawned id. -/
theorem okFees_length (results : List (Except AppError ℚ)) :
    dispatchAllOk results = true → (okFees results).length = results.length := by
  induction results with
  | nil => intro _; rfl
  | cons x xs ih =>
      intro hall
      cases x with
      | ok q =>
          have hxs : dispatchAllOk xs = true := by
            simpa [dispatchAllOk, Except.isOk, Except.toBool] using hall
          have hcons : okFees (Except.ok q :: xs) = q :: okFees xs := rfl
          rw [hcons, List.length_cons, List.length_cons, ih hxs]
      | error e =>
          simp [dispatchAllOk, Except.isOk, Except.toBool] at hall

/-! ## Claim theorems -/

/-- C10: When the process is invoked with no positional argument at all, it
emits a diagnostic asking for a block hash and exits with status 1 before
constructing any network client and before any network activity. -/
theorem c10_missing_argument (v : Nat)
    (r : String → Except AppError (List String)) (f : String → Except AppError ℚ)
    (σ : List Nat) :
    (runMain v none r f σ).clientBuilt = false ∧
    (runMain v none r f σ).resolverCalled = false ∧
    (runMain v none r f σ).dispatched = [] ∧
    (runMain v none r f σ).output = none ∧
    (runMain v none r f σ).exitCode = 1 ∧
    (errorLevel, "Please provide a Bitcoin mainnet block hash.")
      ∈ (runMain v none r f σ).events := by
  refine ⟨rfl, rfl, rfl, rfl, rfl, ?_⟩
  simp [runMain]

/-- C7: If the resolver itself fails (a `NetworkError` or `DecodeError`, both
carried by the `ReqwestError` variant, or an `EndpointError` carried by
`UrlParseError`), the pipeline aborts immediately: no per-transaction fetch
is ever dispatched, the process exits with a non-zero status, and a
diagnostic is emitted. -/
theorem c7_resolution_failure_aborts (v : Nat) (s : String)
    (r : String → Except AppError (List String)) (f : String → Except AppError ℚ)
    (σ : List Nat) (e : AppError)
    (hpre : rustStartsWith (s ++ "/") MAGIC_NUMBER = true)
    (hres : r (s ++ "/") = Except.error e) :
    (runMain v (some s) r f σ).dispatched = [] ∧
    (runMain v (some s) r f σ).completedFetches = [] ∧
    (runMain v (some s) r f σ).output = none ∧
    (runMain v (some s) r f σ).exitCode = 1 ∧
    (errorLevel, "Error fetching transactions from block ID: " ++ describeError e)
      ∈ (runMain v (some s) r f σ).events := by
  rw [runMain_resolver_error v s r f σ e hpre hres]
  exact ⟨rfl, rfl, rfl, rfl, by simp⟩

/-- C7 witness: a concrete run in which resolution fails with a transport
error: nothing is dispatched and the exit status is 1. -/
theorem c7_witness :
    rustStartsWith ("00000000" ++ "/") MAGIC_NUMBER = true ∧
    failResolver ("00000000" ++ "/") = Except.error AppError.reqwestError ∧
    (runMain 1 (some "00000000") failResolver zeroFetcher []).dispatched = [] ∧
    (runMain 1 (some "00000000") failResolver zeroFetcher []).exitCode = 1 := by
  refine ⟨by decide, rfl, ?_, ?_⟩
  · exact (c7_resolution_failure_aborts 1 "00000000" failResolver zeroFetcher []
      AppError.reqwestError (by decide) rfl).1
  · exact (c7_resolution_failure_aborts 1 "00000000" failResolver zeroFetcher []
      AppError.reqwestError (by decide) rfl).2.2.2.1

/-- C3: For a block whose resolver returns an empty sequence of transaction
identifiers, the pipeline succeeds and the computed total is exactly 0,
printed with exit status 0. -/
theorem c3_empty_block_zero_total (v : Nat) (s : String)
    (r : String → Except AppError (List String)) (f : String → Except AppError ℚ)
    (σ : List Nat)
    (hpre : rustStartsWith (s ++ "/") MAGIC_NUMBER = true)
    (hres : r (s ++ "/") = Except.ok ([] : List String)) :
    (runMain v (some s) r f σ).output = some 0 ∧
    (runMain v (some s) r f σ).exitCode = 0 := by
  rw [runMain_resolved v s r f σ [] hpre hres,
    runDispatchPhase_all_ok v f σ [] rfl]
  exact ⟨rfl, rfl⟩

/-- C3 witness: a concrete run on a block with no transactions prints the
total 0 and exits with status 0. -/
theorem c3_witness :
    rustStartsWith ("00000000" ++ "/") MAGIC_NUMBER = true ∧
    emptyResolver ("00000000" ++ "/") = Except.ok [] ∧
    (runMain 1 (some "00000000") emptyResolver zeroFetcher []).output = some 0 ∧
    (runMain 1 (some "00000000") emptyResolver zeroFetcher []).exitCode = 0 := by
  refine ⟨by decide, rfl, ?_, ?_⟩
  · exact (c3_empty_block_zero_total 1 "00000000" emptyResolver zeroFetcher []
      (by decide) rfl).1
  · exact (c3_empty_block_zero_total 1 "00000000" emptyResolver zeroFetcher []
      (by decide) rfl).2

/-- `fitMantissa` is the identity at a mantissa already within 96 bits. -/
theorem fitMantissa_of_lt (s e : Nat) (h : s < 2 ^ 96) :
    fitMantissa s e = some (DecVal.mk s e) := by
  cases e with
  | zero =>
      show (if s < 2 ^ 96 then some (DecVal.mk s 0) else none)
        = some (DecVal.mk s 0)
      rw [if_pos h]
  | succ n =>
      show (if s < 2 ^ 96 then some (DecVal.mk s (n + 1))
          else fitMantissa (bankersDiv10 s) n) = some (DecVal.mk s (n + 1))
      rw [if_pos h]

/-- Same-scale `Decimal` addition is exact while the mantissa sum fits. -/
theorem decAdd_same_scale (e a m : Nat) (h : a + m < 2 ^ 96) :
    decAdd (DecVal.mk a e) (DecVal.mk m e) = some (DecVal.mk (a + m) e) := by
  simp [decAdd, fitMantissa_of_lt _ _ h]

/-- Adding a fee to the zero accumulator `dec!(0)` is exact. -/
theorem decAdd_zero_left (m e : Nat) (h : m < 2 ^ 96) :
    decAdd (DecVal.mk 0 0) (DecVal.mk m e) = some (DecVal.mk m e) := by
  simp [decAdd, fitMantissa_of_lt _ _ h]

/-- The aggregation fold over common-scale fees is exact while the running
mantissa total stays within 96 bits. -/
theorem decFold_common (e : Nat) (ms : List Nat) :
    ∀ acc : Nat, acc + ms.sum < 2 ^ 96 →
      (ms.map (fun m => DecVal.mk m e)).foldl
          (fun a d => a.bind (fun x => decAdd x d)) (some (DecVal.mk acc e))
        = some (DecVal.mk (acc + ms.sum) e) := by
  induction ms with
  | nil => intro acc _; simp
  | cons m rest ih =>
      intro acc h
      rw [List.sum_cons] at h
      have hstep : acc + m < 2 ^ 96 := by omega
      have hrec : (acc + m) + rest.sum < 2 ^ 96 := by omega
      simp only [List.map_cons, List.foldl_cons, Option.some_bind]
      rw [decAdd_same_scale e acc m hstep, ih (acc + m) hrec, List.sum_cons,
        ← Nat.add_assoc]

/-- The program's `Decimal` aggregation of a non-empty common-scale fee list
whose mantissa total fits in 96 bits is the exact sum at that scale. -/
theorem decSum_cons (e m : Nat) (ms : List Nat) (h : m + ms.sum < 2 ^ 96) :
    decSum ((m :: ms).map (fun x => DecVal.mk x e))
      = some (DecVal.mk (m + ms.sum) e) := by
  unfold decSum
  simp only [List.map_cons, List.foldl_cons, Option.some_bind]
  rw [decAdd_zero_left m e (by omega)]
  exact decFold_common e ms m h

/-- C5 counterexample: permutation invariance fails on an in-scope sequence
of representable fees. The fees `(2^96 − 1)·10⁻²⁸`, `9·10⁻²⁸` and `5·10⁻²⁸`
are all well-formed `Decimal` values, and the second list is a permutation
of the first; yet the program's fixed-precision aggregation — adding
`9·10⁻²⁸` before `5·10⁻²⁸` versus after it — loses scale with banker's
rounding at different points and returns totals differing in the last
mantissa digit. The reduction performed by the code is therefore not the
claimed exact (commutative-associative) decimal addition on all in-scope
inputs, and the total is not permutation-invariant. -/
theorem c5_counterexample :
    ([DecVal.mk 79228162514264337593543950335 28, DecVal.mk 9 28,
        DecVal.mk 5 28]).Perm
      [DecVal.mk 79228162514264337593543950335 28, DecVal.mk 5 28,
        DecVal.mk 9 28] ∧
    DecVal.wf (DecVal.mk 79228162514264337593543950335 28) ∧
    DecVal.wf (DecVal.mk 9 28) ∧ DecVal.wf (DecVal.mk 5 28) ∧
    decSum [DecVal.mk 79228162514264337593543950335 28, DecVal.mk 9 28,
        DecVal.mk 5 28]
      = some (DecVal.mk 7922816251426433759354395034 27) ∧
    decSum [DecVal.mk 79228162514264337593543950335 28, DecVal.mk 5 28,
        DecVal.mk 9 28]
      = some (DecVal.mk 7922816251426433759354395035 27) ∧
    DecVal.toRat (DecVal.mk 7922816251426433759354395034 27)
      ≠ DecVal.toRat (DecVal.mk 7922816251426433759354395035 27) := by
  refine ⟨List.Perm.cons _ (List.Perm.swap _ _ _), by constructor <;> decide,
    by constructor <;> decide, by constructor <;> decide, by decide, by decide,
    ?_⟩
  norm_num [DecVal.toRat]

/-- C5 amended: within the representable range the aggregation is exact and
permutation-invariant — for fee sequences sharing a common scale whose
mantissa total stays below `2 ^ 96`, no rounding or overflow occurs in any
order, the computed total is the exact sum at that scale, and any
permutation of the sequence yields the same total. Outside that range the
fixed-precision rounding breaks the invariance (see the counterexample). -/
theorem c5_representable_permutation_invariant (e : Nat) (ms₁ ms₂ : List Nat)
    (h : ms₁.Perm ms₂) (hsum : ms₁.sum < 2 ^ 96) :
    decSum (ms₁.map (fun m => DecVal.mk m e))
      = decSum (ms₂.map (fun m => DecVal.mk m e)) ∧
    (ms₁ ≠ [] → decSum (ms₁.map (fun m => DecVal.mk m e))
      = some (DecVal.mk ms₁.sum e)) := by
  cases ms₁ with
  | nil =>
      have h2 : ms₂ = [] := h.nil_eq.symm
      subst h2
      exact ⟨rfl, fun hne => absurd rfl hne⟩
  | cons m rest =>
      cases ms₂ with
      | nil => exact absurd h.symm.nil_eq (by simp)
      | cons m₂ rest₂ =>
          have hsum₂ : m₂ + rest₂.sum < 2 ^ 96 := by
            have := h.sum_eq
            simp only [List.sum_cons] at this hsum ⊢
            omega
          have hsum₁ : m + rest.sum < 2 ^ 96 := by
            simp only [List.sum_cons] at hsum
            omega
          refine ⟨?_, fun _ => by
            rw [decSum_cons e m rest hsum₁]; simp⟩
          rw [decSum_cons e m rest hsum₁, decSum_cons e m₂ rest₂ hsum₂]
          have := h.sum_eq
          simp only [List.sum_cons] at this
          rw [show m + rest.sum = m₂ + rest₂.sum from this]

/-- C5 witness: a concrete common-scale fee sequence within the
representable range: permuting it leaves the aggregated total unchanged,
and the total is the exact sum. -/
theorem c5_witness :
    ([1, 2, 3] : List Nat).Perm [3, 1, 2] ∧
    ([1, 2, 3] : List Nat).sum < 2 ^ 96 ∧
    decSum (([1, 2, 3] : List Nat).map (fun m => DecVal.mk m 28))
      = decSum (([3, 1, 2] : List Nat).map (fun m => DecVal.mk m 28)) ∧
    decSum (([1, 2, 3] : List Nat).map (fun m => DecVal.mk m 28))
      = some (DecVal.mk 6 28) := by
  have h := c5_representable_permutation_invariant 28 [1, 2, 3] [3, 1, 2]
    (by decide) (by decide)
  refine ⟨by decide, by decide, h.1, ?_⟩
  have h2 := h.2 (by simp)
  simpa using h2

/-- C2 counterexample: the input `"00000000zz"` is not a 64-character
lowercase-hex block identifier, yet the program accepts it — the resolver is
invoked (a network call is made) and, the remote dataset permitting, the run
even succeeds — refuting the claim that every string failing the
64-lowercase-hex format is rejected with no network call. The source's
validation is only the `MAGIC_NUMBER` prefix check. -/
theorem c2_counterexample :
    specValidBlockId "00000000zz" = false ∧
    (runMain 1 (some "00000000zz") emptyResolver zeroFetcher []).resolverCalled
      = true ∧
    (runMain 1 (some "00000000zz") emptyResolver zeroFetcher []).exitCode = 0 := by
  exact ⟨by decide, rfl, rfl⟩

/-- C2 amended: validation checks only that the input (with `"/"` appended)
begins with the eight-zero prefix. The resolver is invoked exactly when the
prefix check passes; every input failing it is rejected with a diagnostic
and exit status 1, before any client construction or network activity. -/
theorem c2_prefix_only_validation (v : Nat) (s : String)
    (r : String → Except AppError (List String)) (f : String → Except AppError ℚ)
    (σ : List Nat) :
    (runMain v (some s) r f σ).resolverCalled
        = rustStartsWith (s ++ "/") MAGIC_NUMBER ∧
    (rustStartsWith (s ++ "/") MAGIC_NUMBER = false →
      (runMain v (some s) r f σ).clientBuilt = false ∧
      (runMain v (some s) r f σ).dispatched = [] ∧
      (runMain v (some s) r f σ).output = none ∧
      (runMain v (some s) r f σ).exitCode = 1 ∧
      (errorLevel, "Invalid hash. Please provide a Bitcoin mainnet block hash.")
        ∈ (runMain v (some s) r f σ).events) := by
  constructor
  · by_cases hpre : rustStartsWith (s ++ "/") MAGIC_NUMBER = true
    · rw [hpre]
      cases hres : r (s ++ "/") with
      | error e => rw [runMain_resolver_error v s r f σ e hpre hres]
      | ok txids =>
          rw [runMain_resolved v s r f σ txids hpre hres]
          by_cases hall : dispatchAllOk (fetchResults f txids) = true
          · rw [runDispatchPhase_all_ok v f σ txids hall]
          · rw [runDispatchPhase_failure v f σ txids (by simpa using hall)]
    · have hpre' : rustStartsWith (s ++ "/") MAGIC_NUMBER = false := by
        simpa using hpre
      rw [runMain_invalid_hash v s r f σ hpre', hpre']
  · intro hpre
    rw [runMain_invalid_hash v s r f σ hpre]
    exact ⟨rfl, rfl, rfl, rfl, by simp⟩

/-- C2 witness: a concrete input without the eight-zero prefix is rejected
with exit status 1 and the resolver is never invoked. -/
theorem c2_witness :
    rustStartsWith ("deadbeef" ++ "/") MAGIC_NUMBER = false ∧
    (runMain 1 (some "deadbeef") emptyResolver zeroFetcher []).resolverCalled
      = false ∧
    (runMain 1 (some "deadbeef") emptyResolver zeroFetcher []).exitCode = 1 := by
  have h := c2_prefix_only_validation 1 "deadbeef" emptyResolver zeroFetcher []
  refine ⟨by decide, ?_, ?_⟩
  · rw [h.1]; decide
  · exact (h.2 (by decide)).2.2.2.1

/-- C4: For a block resolving to three transactions with exact-decimal fees
0.0001, 0.0002 and 0.0003, the computed total is exactly 0.0006, regardless
of the order in which the three fetches complete (the completion schedule
`σ` is arbitrary; the join loop sums in spawn order). -/
theorem c4_three_fee_total (v : Nat) (s t₁ t₂ t₃ : String)
    (r : String → Except AppError (List String)) (f : String → Except AppError ℚ)
    (σ : List Nat)
    (hpre : rustStartsWith (s ++ "/") MAGIC_NUMBER = true)
    (hres : r (s ++ "/") = Except.ok [t₁, t₂, t₃])
    (h₁ : f t₁ = Except.ok (1 / 10000))
    (h₂ : f t₂ = Except.ok (2 / 10000))
    (h₃ : f t₃ = Except.ok (3 / 10000)) :
    (runMain v (some s) r f σ).output = some (6 / 10000) ∧
    (runMain v (some s) r f σ).exitCode = 0 := by
  have hfr : fetchResults f [t₁, t₂, t₃] =
      [Except.ok (1 / 10000), Except.ok (2 / 10000), Except.ok (3 / 10000)] := by
    simp [fetchResults, h₁, h₂, h₃]
  have hall : dispatchAllOk (fetchResults f [t₁, t₂, t₃]) = true := by
    rw [hfr]; rfl
  rw [runMain_resolved v s r f σ _ hpre hres,
    runDispatchPhase_all_ok v f σ _ hall]
  refine ⟨?_, rfl⟩
  show some (sumFees (okFees (fetchResults f [t₁, t₂, t₃]))) = some (6 / 10000)
  rw [hfr]
  norm_num [sumFees, okFees, Except.toOption, List.filterMap_cons,
    List.filterMap_nil]

/-- C4 witness: a concrete three-transaction block with fees 0.0001, 0.0002,
0.0003 totals exactly 0.0006 under a non-trivial completion schedule. -/
theorem c4_witness :
    rustStartsWith ("00000000" ++ "/") MAGIC_NUMBER = true ∧
    threeTxResolver ("00000000" ++ "/") = Except.ok ["t1", "t2", "t3"] ∧
    threeFeeFetcher "t1" = Except.ok (1 / 10000) ∧
    threeFeeFetcher "t2" = Except.ok (2 / 10000) ∧
    threeFeeFetcher "t3" = Except.ok (3 / 10000) ∧
    (runMain 1 (some "00000000") threeTxResolver threeFeeFetcher [2, 0, 1]).output
      = some (6 / 10000) := by
  refine ⟨by decide, rfl, rfl, rfl, rfl, ?_⟩
  exact (c4_three_fee_total 1 "00000000" "t1" "t2" "t3" threeTxResolver
    threeFeeFetcher [2, 0, 1] (by decide) rfl rfl rfl rfl).1

/-- C6: On any validation, resolution, or dispatch failure, the process
prints no total, emits an error-level diagnostic and exits with status 1;
the success output (exactly one printed total) occurs only when every stage
— argument present, prefix check, resolution, and all fetches — succeeded,
and then the total is the aggregated fee sum. -/
theorem c6_failure_prints_no_total (v : Nat) (arg : Option String)
    (r : String → Except AppError (List String)) (f : String → Except AppError ℚ)
    (σ : List Nat) :
    ((runMain v arg r f σ).output = none ∧ (runMain v arg r f σ).exitCode = 1 ∧
      ∃ m, (errorLevel, m) ∈ (runMain v arg r f σ).events) ∨
    ((runMain v arg r f σ).exitCode = 0 ∧
      ∃ s txids, arg = some s ∧
        rustStartsWith (s ++ "/") MAGIC_NUMBER = true ∧
        r (s ++ "/") = Except.ok txids ∧
        dispatchAllOk (fetchResults f txids) = true ∧
        (runMain v arg r f σ).output
          = some (sumFees (okFees (fetchResults f txids)))) := by
  cases arg with
  | none =>
      left
      rw [runMain_no_arg]
      exact ⟨rfl, rfl, "Please provide a Bitcoin mainnet block hash.", by simp⟩
  | some s =>
      by_cases hpre : rustStartsWith (s ++ "/") MAGIC_NUMBER = true
      · cases hres : r (s ++ "/") with
        | error e =>
            left
            rw [runMain_resolver_error v s r f σ e hpre hres]
            exact ⟨rfl, rfl,
              "Error fetching transactions from block ID: " ++ describeError e,
              by simp⟩
        | ok txids =>
            by_cases hall : dispatchAllOk (fetchResults f txids) = true
            · right
              rw [runMain_resolved v s r f σ txids hpre hres,
                runDispatchPhase_all_ok v f σ txids hall]
              exact ⟨rfl, s, txids, rfl, hpre, hres, hall, rfl⟩
            · left
              have hall' : dispatchAllOk (fetchResults f txids) = false := by
                simpa using hall
              rw [runMain_resolved v s r f σ txids hpre hres,
                runDispatchPhase_failure v f σ txids hall']
              exact ⟨rfl, rfl,
                "Error fetching fee from one or more transactions.", by simp⟩
      · left
        have hpre' : rustStartsWith (s ++ "/") MAGIC_NUMBER = false := by
          simpa using hpre
        rw [runMain_invalid_hash v s r f σ hpre']
        exact ⟨rfl, rfl,
          "Invalid hash. Please provide a Bitcoin mainnet block hash.", by simp⟩

/-- C9: Two runs that differ only in the environment-controlled log
verbosity compute the same printed total, the same exit status, the same
network activity and the same emitted events: verbosity filters only which
log lines are displayed. -/
theorem c9_verbosity_noninterference (v₁ v₂ : Nat) (arg : Option String)
    (r : String → Except AppError (List String)) (f : String → Except AppError ℚ)
    (σ : List Nat) :
    (runMain v₁ arg r f σ).output = (runMain v₂ arg r f σ).output ∧
    (runMain v₁ arg r f σ).exitCode = (runMain v₂ arg r f σ).exitCode ∧
    (runMain v₁ arg r f σ).resolverCalled = (runMain v₂ arg r f σ).resolverCalled ∧
    (runMain v₁ arg r f σ).dispatched = (runMain v₂ arg r f σ).dispatched ∧
    (runMain v₁ arg r f σ).events = (runMain v₂ arg r f σ).events := by
  cases arg with
  | none => exact ⟨rfl, rfl, rfl, rfl, rfl⟩
  | some s =>
      by_cases hpre : rustStartsWith (s ++ "/") MAGIC_NUMBER = true
      · cases hres : r (s ++ "/") with
        | error e =>
            rw [runMain_resolver_error v₁ s r f σ e hpre hres,
              runMain_resolver_error v₂ s r f σ e hpre hres]
            exact ⟨rfl, rfl, rfl, rfl, rfl⟩
        | ok txids =>
            rw [runMain_resolved v₁ s r f σ txids hpre hres,
              runMain_resolved v₂ s r f σ txids hpre hres]
            by_cases hall : dispatchAllOk (fetchResults f txids) = true
            · rw [runDispatchPhase_all_ok v₁ f σ txids hall,
                runDispatchPhase_all_ok v₂ f σ txids hall]
              exact ⟨rfl, rfl, rfl, rfl, rfl⟩
            · have hall' : dispatchAllOk (fetchResults f txids) = false := by
                simpa using hall
              rw [runDispatchPhase_failure v₁ f σ txids hall',
                runDispatchPhase_failure v₂ f σ txids hall']
              exact ⟨rfl, rfl, rfl, rfl, rfl⟩
      · have hpre' : rustStartsWith (s ++ "/") MAGIC_NUMBER = false := by
          simpa using hpre
        rw [runMain_invalid_hash v₁ s r f σ hpre',
          runMain_invalid_hash v₂ s r f σ hpre']
        exact ⟨rfl, rfl, rfl, rfl, rfl⟩

/-- C1 counterexample: a block with two dispatched transactions whose first
fetch fails. The failing task terminates the whole process from inside the
spawned task (`process::exit(1)` in the `tokio::spawn` closure), so no
joined set of per-identifier outcomes is ever produced (`joinedOutcomes`
is `none`, not a two-element set), and under the completion schedule
`[0, 1]` the in-flight second fetch is never awaited to completion
(`completedFetches = []`): the dispatched identifier `"t2"` contributes no
outcome, refuting the claimed one-outcome-per-identifier join semantics. -/
theorem c1_counterexample :
    (runMain 1 (some "00000000") twoTxResolver firstFailFetcher [0, 1]).dispatched
      = ["t1", "t2"] ∧
    joinedOutcomes (fetchResults firstFailFetcher ["t1", "t2"]) = none ∧
    (runMain 1 (some "00000000") twoTxResolver firstFailFetcher
      [0, 1]).completedFetches = [] ∧
    (runMain 1 (some "00000000") twoTxResolver firstFailFetcher [0, 1]).output
      = none ∧
    (runMain 1 (some "00000000") twoTxResolver firstFailFetcher [0, 1]).exitCode
      = 1 :=
  ⟨rfl, rfl, rfl, rfl, rfl⟩

/-- C1 amended: when every fetch succeeds, the join produces one outcome per
dispatched identifier and the total of all fees is printed with exit status
0; when some fetch fails, the overall operation reports failure (exit
status 1, nothing printed) by exiting the process from inside the first
failing task per the completion schedule — no joined outcome set is
produced, and only the fetches that completed before that failure ran to
completion (later in-flight fetches are abandoned, not awaited). -/
theorem c1_dispatch_join_semantics (v : Nat) (s : String)
    (r : String → Except AppError (List String)) (f : String → Except AppError ℚ)
    (σ : List Nat) (txids : List String)
    (hpre : rustStartsWith (s ++ "/") MAGIC_NUMBER = true)
    (hres : r (s ++ "/") = Except.ok txids) :
    (dispatchAllOk (fetchResults f txids) = true →
      (runMain v (some s) r f σ).dispatched = txids ∧
      joinedOutcomes (fetchResults f txids) = some (fetchResults f txids).enum ∧
      (okFees (fetchResults f txids)).length = txids.length ∧
      (runMain v (some s) r f σ).output
        = some (sumFees (okFees (fetchResults f txids))) ∧
      (runMain v (some s) r f σ).exitCode = 0) ∧
    (dispatchAllOk (fetchResults f txids) = false →
      (runMain v (some s) r f σ).dispatched = txids ∧
      joinedOutcomes (fetchResults f txids) = none ∧
      (runMain v (some s) r f σ).output = none ∧
      (runMain v (some s) r f σ).exitCode = 1 ∧
      (runMain v (some s) r f σ).completedFetches
        = completedUpToFailure σ (fetchResults f txids)) := by
  constructor
  · intro hall
    rw [runMain_resolved v s r f σ txids hpre hres,
      runDispatchPhase_all_ok v f σ txids hall]
    refine ⟨rfl, ?_, ?_, rfl, rfl⟩
    · simp [joinedOutcomes, hall]
    · have hlen := okFees_length (fetchResults f txids) hall
      simpa [fetchResults] using hlen
  · intro hall
    rw [runMain_resolved v s r f σ txids hpre hres,
      runDispatchPhase_failure v f σ txids hall]
    refine ⟨rfl, ?_, rfl, rfl, rfl⟩
    simp [joinedOutcomes, hall]

/-- C1 witness: a concrete all-success dispatch of three transactions joins
one fee per identifier and exits with status 0. -/
theorem c1_witness :
    rustStartsWith ("00000000" ++ "/") MAGIC_NUMBER = true ∧
    threeTxResolver ("00000000" ++ "/") = Except.ok ["t1", "t2", "t3"] ∧
    dispatchAllOk (fetchResults threeFeeFetcher ["t1", "t2", "t3"]) = true ∧
    (okFees (fetchResults threeFeeFetcher ["t1", "t2", "t3"])).length = 3 ∧
    (runMain 1 (some "00000000") threeTxResolver threeFeeFetcher
      [0, 1, 2]).exitCode = 0 := by
  have h := (c1_dispatch_join_semantics 1 "00000000" threeTxResolver
    threeFeeFetcher [0, 1, 2] ["t1", "t2", "t3"] (by decide) rfl).1 rfl
  exact ⟨by decide, rfl, rfl, h.2.2.1, h.2.2.2.2⟩

/-- The value `2 ^ 96` exceeds the 96-bit mantissa of `rust_decimal`'s
`Decimal`: it is an exact decimal number no `Decimal` value represents. -/
theorem pow96_not_representable : ¬ RepresentableDec ((2 : ℚ) ^ 96) := by
  rintro ⟨m, e, _, hm, hq⟩
  have h10 : ((10 : ℚ) ^ e) ≠ 0 := by positivity
  have hq' : ((2 : ℚ) ^ 96) * 10 ^ e = (m : ℚ) := by
    rw [hq, div_mul_cancel₀ _ h10]
  have hz : (2 : ℤ) ^ 96 * 10 ^ e = m := by exact_mod_cast hq'
  have h1 : (1 : ℤ) ≤ 10 ^ e := by exact_mod_cast Nat.one_le_pow e 10 (by norm_num)
  have h2 : (2 : ℤ) ^ 96 ≤ m := by nlinarith
  have h3 : (m.natAbs : ℤ) < 2 ^ 96 := by exact_mod_cast hm
  have h4 : m ≤ (m.natAbs : ℤ) := Int.le_natAbs
  linarith

/-- C8 counterexample: the fee type is not arbitrary-precision. The two fee
amounts `2 ^ 96 - 1` and `1` are both representable `Decimal` values, their
aggregation is the exact decimal `2 ^ 96`, yet no `Decimal` value represents
`2 ^ 96` (the real program's `sum += fee` panics there): summing
representable fees can leave the fixed-precision representation. -/
theorem c8_counterexample :
    RepresentableDec ((2 : ℚ) ^ 96 - 1) ∧
    RepresentableDec 1 ∧
    sumFees [(2 : ℚ) ^ 96 - 1, 1] = 2 ^ 96 ∧
    ¬ RepresentableDec ((2 : ℚ) ^ 96) := by
  refine ⟨⟨(79228162514264337593543950335 : ℤ), 0, by norm_num, by decide, by
      norm_num⟩,
    ⟨1, 0, by norm_num, by norm_num, by norm_num⟩, ?_, pow96_not_representable⟩
  norm_num [sumFees]

/-- C8 amended: every fee amount and the running total are exact decimal
values — integer mantissa scaled by a power of ten, never a binary
floating-point approximation — of the fixed-precision (96-bit mantissa,
scale at most 28) `rust_decimal` type, and aggregation is exact: the
computed total equals the exact rational sum of the fees, so no rounding
drift occurs while the values stay representable. -/
theorem c8_exact_decimal_aggregation :
    (∀ q : ℚ, RepresentableDec q → IsDecimalValue q) ∧
    (∀ fees : List ℚ, (∀ q ∈ fees, IsDecimalValue q) →
      IsDecimalValue (sumFees fees) ∧ sumFees fees = fees.sum) := by
  constructor
  · rintro q ⟨m, e, _, _, hq⟩
    exact ⟨m, e, hq⟩
  · intro fees h
    refine ⟨?_, sumFees_eq_sum fees⟩
    rw [sumFees_eq_sum]
    exact isDecimalValue_sum fees h

/-- C8 witness: the fee 0.0001 is a representable exact decimal, and the
aggregation of the fees 0.0001 and 0.0002 is an exact decimal equal to
their exact rational sum. -/
theorem c8_witness :
    RepresentableDec (1 / 10000 : ℚ) ∧
    IsDecimalValue (1 / 10000 : ℚ) ∧
    IsDecimalValue (sumFees [1 / 10000, 2 / 10000]) ∧
    sumFees [(1 : ℚ) / 10000, 2 / 10000]
      = List.sum [(1 : ℚ) / 10000, 2 / 10000] := by
  have h1 : RepresentableDec (1 / 10000 : ℚ) :=
    ⟨1, 4, by norm_num, by norm_num, by norm_num⟩
  have hd : ∀ q ∈ ([1 / 10000, 2 / 10000] : List ℚ), IsDecimalValue q := by
    intro q hq
    simp only [List.mem_cons, List.not_mem_nil, or_false] at hq
    rcases hq with rfl | rfl
    · exact ⟨1, 4, by norm_num⟩
    · exact ⟨2, 4, by norm_num⟩
  exact ⟨h1, c8_exact_decimal_aggregation.1 _ h1,
    (c8_exact_decimal_aggregation.2 _ hd).1,
    (c8_exact_decimal_aggregation.2 _ hd).2⟩

end BlockFees
